import Mathlib

/-!
Shallow embedding of `src/src/lib/realmdb/RealmDB.js` (GoodDAPP), the
local-first feed database with an encrypted remote mirror.

The local embedded store (ThreadDB/Dexie) and the remote Mongo-style
collection are external dependencies of the file; per the specification they
are treated as opaque ordered collections.  They are embedded here as Lean
lists with the operations RealmDB.js actually invokes (`save` = upsert by the
`_id` primary key, `findById`, `update {$set}`, the chained query builder
`orderBy/reverse/offset/filter/limit/toArray`, Mongo `find/findOne/updateOne
(upsert)`).  Crypto, JSON and base64 are opaque bijections supplied by the
environment, exactly as RealmDB.js consumes them.
-/

namespace RealmDB

/-- A local feed item (ThreadDB `Feed` table document).  `_id` is the local
primary key, `id` the feed-level identifier, `date` the sort key, `sync`
the "successfully mirrored to remote" flag (`none` = field absent). -/
structure FeedItem where
  id : String
  _id : String := ""
  date : Int := 0
  status : Option String := none
  otplStatus : Option String := none
  sync : Option Bool := none
  deriving Repr, DecidableEq

/-- A document of the remote `encrypted_feed` collection:
`{_id, user_id, txHash?, encrypted, date}`. -/
structure EncryptedFeedRecord where
  _id : String
  user_id : String
  txHash : Option String := none
  encrypted : String := ""
  date : Int := 0
  deriving Repr, DecidableEq

/-- ThreadDB `Feed.save`: upsert by the `_id` primary key (replace the
stored document with the same `_id`, else append). -/
def saveItem : List FeedItem → FeedItem → List FeedItem
  | [], it => [it]
  | x :: xs, it => if x._id = it._id then it :: xs else x :: saveItem xs it

/-- ThreadDB `Feed.save(...decrypted)` with several documents. -/
def saveAll (l : List FeedItem) (items : List FeedItem) : List FeedItem :=
  items.foldl saveItem l

/-- ThreadDB `Feed.findById`: lookup by primary key `_id`. -/
def findById (l : List FeedItem) (id : String) : Option FeedItem :=
  l.find? (fun x => x._id = id)

/-- Dexie `FeedTable.update({ _id }, { $set: { sync } })`: set the `sync`
field on the documents whose `_id` matches. -/
def updateSync (l : List FeedItem) (id : String) (v : Bool) : List FeedItem :=
  l.map (fun x => if x._id = id then { x with sync := some v } else x)

/-- Mongo `encryptedFeed.updateOne({_id, user_id}, doc, {upsert: true})`:
replace the first document matching both keys, else insert. -/
def upsertRecord (r : EncryptedFeedRecord) : List EncryptedFeedRecord → List EncryptedFeedRecord
  | [] => [r]
  | x :: xs =>
    if x._id = r._id ∧ x.user_id = r.user_id then r :: xs else x :: upsertRecord r xs

/-- Mongo `encryptedFeed.findOne({ _id })`. -/
def findOneRecord (rs : List EncryptedFeedRecord) (id : String) : Option EncryptedFeedRecord :=
  rs.find? (fun x => x._id = id)

/-- Mongo `encryptedFeed.find({user_id, date: {$gt: lastSync}})`. -/
def remoteFind (rs : List EncryptedFeedRecord) (uid : String) (gtDate : Int) :
    List EncryptedFeedRecord :=
  rs.filter (fun r => r.user_id = uid && gtDate < r.date)

/-- External serialization / crypto plumbing used by RealmDB.js, for payloads
of type `σ`: `JSON.stringify`/`JSON.parse` (parse may throw: `Option`),
`TextEncoder`/`TextDecoder`, `privateKey.public.encrypt`,
`privateKey.decrypt` (may throw on corrupt input: `Option`) and base64
conversion (`Buffer.from(_).toString('base64')` / `Buffer.from(_, 'base64')`). -/
structure Env (σ : Type) where
  stringify : σ → String
  parse : String → Option σ
  strToBytes : String → List Nat
  bytesToStr : List Nat → String
  pubEncrypt : List Nat → List Nat
  privDecrypt : List Nat → Option (List Nat)
  b64encode : List Nat → String
  b64decode : String → List Nat

/-- The combined database state: the local ThreadDB `Feed` table and the
remote `encrypted_feed` collection. -/
structure DBState where
  feed : List FeedItem
  remote : List EncryptedFeedRecord
  deriving Repr, DecidableEq

/-- Body of the `try` block of `_encrypt`: serialize, encrypt, base64-encode,
and upsert `{_id: `txHash_userId`, txHash, user_id, encrypted, date}` into the
remote collection; returns the updated collection and the upserted record. -/
def encryptBody (env : Env FeedItem) (uid : String) (item : FeedItem)
    (rs : List EncryptedFeedRecord) : List EncryptedFeedRecord × EncryptedFeedRecord :=
  let encrypted := env.b64encode (env.pubEncrypt (env.strToBytes (env.stringify item)))
  let txHash := item.id
  let rec0 : EncryptedFeedRecord :=
    { _id := txHash ++ "_" ++ uid, user_id := uid, txHash := some txHash,
      encrypted := encrypted, date := item.date }
  (upsertRecord rec0 rs, rec0)

/-- The `try` block of `_encrypt` as a promise: the encryption / remote
upsert can fail at runtime (network error, crypto error); the oracle `ok`
says whether this attempt succeeds.  `Except.error` models promise
rejection. -/
def encryptTry (env : Env FeedItem) (ok : Bool) (uid : String) (item : FeedItem)
    (rs : List EncryptedFeedRecord) :
    Except String (List EncryptedFeedRecord × EncryptedFeedRecord) :=
  if ok then .ok (encryptBody env uid item rs) else .error "push failed"

/-- `_encrypt(feedItem)` as a promise value.  The whole body sits inside
`try { ... } catch (e) { log.error(...) }`: a failure is logged and the
function returns `undefined` — the promise still *resolves* (the remote
collection is left unchanged and the result is `none`). -/
def encryptP (env : Env FeedItem) (ok : Bool) (uid : String) (item : FeedItem)
    (rs : List EncryptedFeedRecord) :
    Except String (List EncryptedFeedRecord × Option EncryptedFeedRecord) :=
  match encryptTry env ok uid item rs with
  | .ok (rs', r) => .ok (rs', some r)
  | .error _ => .ok (rs, none)

/-- `write(feedItem)`: reject with `'feed item missing id'` when `id` is
falsy (empty); otherwise mutate the argument by `feedItem._id = feedItem.id`,
save it to the local store, and return.  The result pairs the state at the
moment `write`'s promise resolves with the outcome the caller sees — on
success the caller's (mutated) `feedItem` object.  The background
`_encrypt(...).catch(...)` task is `writeBackground` below. -/
def write (item : FeedItem) (st : DBState) : DBState × Except String FeedItem :=
  if item.id = "" then (st, .error "feed item missing id")
  else
    let item' := { item with _id := item.id }
    ({ st with feed := saveItem st.feed item' }, .ok item')

/-- The background task spawned by `write`:
`this._encrypt(feedItem).catch(e => { log.error(...); this.db.FeedTable.update({_id: feedItem.id}, {$set: {sync: false}}) })`.
The `.catch` handler fires only if `_encrypt`'s promise rejects. -/
def writeBackground (env : Env FeedItem) (ok : Bool) (uid : String) (item' : FeedItem)
    (st : DBState) : DBState :=
  match encryptP env ok uid item' st.remote with
  | .ok (rs', _) => { st with remote := rs' }
  | .error _ => { st with feed := updateSync st.feed item'.id false }

/-- `read(id)`: local-only `findById`. -/
def read (st : DBState) (id : String) : Option FeedItem :=
  findById st.feed id

/-- Ascending order on the `date` index, used by `orderBy('date')`. -/
def dateLe (a b : FeedItem) : Prop := a.date ≤ b.date

instance : DecidableRel dateLe := fun a b => inferInstanceAs (Decidable (a.date ≤ b.date))

instance : IsTotal FeedItem dateLe := ⟨fun a b => Int.le_total a.date b.date⟩

instance : IsTrans FeedItem dateLe := ⟨fun _ _ _ h h' => le_trans h h'⟩

/-- Modelled from the spec: the Local Store Adapter's Dexie-style chained
query builder (§6, §9) — ThreadDB/Dexie are not part of the sources.  A
`Collection` is the current ordered stream of documents; each chained call
transforms the stream in call order. -/
structure Collection where
  items : List FeedItem

/-- Dexie `Collection.reverse()`. -/
def Collection.reverse (c : Collection) : Collection := ⟨c.items.reverse⟩

/-- Dexie `Collection.offset(n)`: skip the first `n` documents of the
stream. -/
def Collection.offset (c : Collection) (n : Nat) : Collection := ⟨c.items.drop n⟩

/-- Dexie `Collection.filter(p)`: keep the documents satisfying `p`. -/
def Collection.filter (c : Collection) (p : FeedItem → Bool) : Collection := ⟨c.items.filter p⟩

/-- Dexie `Collection.limit(n)`: keep at most the first `n` documents. -/
def Collection.limit (c : Collection) (n : Nat) : Collection := ⟨c.items.take n⟩

/-- Dexie `Collection.toArray()`. -/
def Collection.toArray (c : Collection) : List FeedItem := c.items

/-- Dexie `FeedTable.orderBy('date')`: the table ordered ascending on the
`date` index. -/
def orderByDate (feed : List FeedItem) : Collection :=
  ⟨List.insertionSort dateLe feed⟩

/-- The Sync Watermark computation of `_syncFromRemote`:
`FeedTable.orderBy('date').reverse().limit(1).toArray().then(r => get(r, '[0].date', 0))`. -/
def lastSyncOf (feed : List FeedItem) : Int :=
  ((((orderByDate feed).reverse.limit 1).toArray.head?).map FeedItem.date).getD 0

/-- `pat.isPrefixOf l || ...` scan: does `pat` occur as a contiguous run
inside `l`?  (JS `String.prototype.includes`.) -/
def listHasInfix (pat : List Char) : List Char → Bool
  | [] => pat.isEmpty
  | a :: as => pat.isPrefixOf (a :: as) || listHasInfix pat as

/-- JS `str.includes(pat)`. -/
def strIncludes (s pat : String) : Bool := listHasInfix pat.toList s.toList

/-- The pull-path candidate filter of `_syncFromRemote`:
`newItems.filter(_ => !_._id.toString().includes('settings') && _.txHash)`
(`_.txHash` is JS-truthy: present and non-empty). -/
def eligibleRecord (r : EncryptedFeedRecord) : Bool :=
  !(strIncludes r._id "settings") &&
    (match r.txHash with
     | some s => !s.isEmpty
     | none => false)

/-- `_decrypt(item)`: base64-decode, `privateKey.decrypt`, UTF-8-decode,
`JSON.parse`; any failure is caught, logged, and yields `undefined`
(`none`). -/
def decryptRecord (env : Env FeedItem) (r : EncryptedFeedRecord) : Option FeedItem :=
  match env.privDecrypt (env.b64decode r.encrypted) with
  | none => none
  | some bytes => env.parse (env.bytesToStr bytes)

/-- The pull half of `_syncFromRemote`: compute the watermark, fetch the
current user's strictly newer remote records, drop settings-marker / missing
`txHash` candidates, decrypt each independently (`Promise.all` then
`.filter(_ => _)` drops the failures), and save the batch locally. -/
def pullFromRemote (env : Env FeedItem) (uid : String) (st : DBState) : DBState :=
  let lastSync := lastSyncOf st.feed
  let newItems := remoteFind st.remote uid lastSync
  let filtered := newItems.filter eligibleRecord
  if filtered.length ≠ 0 then
    let decrypted := (filtered.map (decryptRecord env)).filterMap id
    { st with feed := saveAll st.feed decrypted }
  else st

/-- One iteration of the retry loop of `_syncFromRemote`:
`failedSync.forEach(async item => { await this._encrypt(item); this.db.FeedTable.update({_id: item.id}, {$set: {sync: true}}) })`.
If `await this._encrypt(item)` threw, the `update` line would be skipped;
the oracle `ok` says whether this item's re-push attempt succeeds. -/
def retryStep (env : Env FeedItem) (ok : Bool) (uid : String) (st : DBState)
    (item : FeedItem) : DBState :=
  match encryptP env ok uid item st.remote with
  | .ok (rs', _) => { feed := updateSync st.feed item.id true, remote := rs' }
  | .error _ => st

/-- The retry half of `_syncFromRemote`: scan the local store for items with
`sync = false` and run `retryStep` on each; `okOf` gives each item's re-push
outcome. -/
def retryFailed (env : Env FeedItem) (okOf : FeedItem → Bool) (uid : String)
    (st : DBState) : DBState :=
  (st.feed.filter (fun i => i.sync = some false)).foldl
    (fun acc item => retryStep env (okOf item) uid acc item) st

/-- `_syncFromRemote()`: the pull half followed by the failed-push retry
half. -/
def syncFromRemote (env : Env FeedItem) (okOf : FeedItem → Bool) (uid : String)
    (st : DBState) : DBState :=
  retryFailed env okOf uid (pullFromRemote env uid st)

/-- The `getFeedPage` exclusion predicate:
`['deleted','cancelled','canceled'].includes(i.status) === false && ['deleted','cancelled','canceled'].includes(i.otplStatus) === false`
(an absent field is not in the list). -/
def keepItem (i : FeedItem) : Bool :=
  !(match i.status with
    | some s => ["deleted", "cancelled", "canceled"].contains s
    | none => false) &&
  !(match i.otplStatus with
    | some s => ["deleted", "cancelled", "canceled"].contains s
    | none => false)

/-- `getFeedPage(numResults, offset)`:
`FeedTable.orderBy('date').reverse().offset(offset).filter(keep).limit(numResults).toArray()`,
wrapped in `try { ... } catch { return [] }`; the oracle `ok` says whether the
underlying query succeeds. -/
def getFeedPage (ok : Bool) (numResults offset : Nat) (st : DBState) : List FeedItem :=
  if ok then
    (((((orderByDate st.feed).reverse.offset offset).filter keepItem).limit
      numResults).toArray)
  else []

/-- The claim's description of `getFeedPage` (C7): the exclusion filter
applied *first*, then `offset`, then `limit` — to be compared with
`getFeedPage` above, whose chain applies `offset` before the filter. -/
def getFeedPageClaimed (ok : Bool) (numResults offset : Nat) (st : DBState) : List FeedItem :=
  if ok then
    (((((orderByDate st.feed).reverse.filter keepItem).offset offset).limit
      numResults).toArray)
  else []

/-- `encryptSettings(settings)`: serialize, encrypt, base64-encode and upsert
the single record `{_id: userId_settings, user_id, encrypted}` (no `txHash`,
no `date`). -/
def encryptSettings {σ : Type} (env : Env σ) (uid : String) (s : σ)
    (rs : List EncryptedFeedRecord) : List EncryptedFeedRecord :=
  let encrypted := env.b64encode (env.pubEncrypt (env.strToBytes (env.stringify s)))
  upsertRecord { _id := uid ++ "_settings", user_id := uid, encrypted := encrypted } rs

/-- `decryptSettings()`: `findOne({_id: userId_settings})`; missing record or
falsy `encrypted` leaves `settings = {}` (`emptyS`); otherwise decrypt and
parse — those two steps are *not* wrapped in a `try`, so their failure
rejects the promise (`Except.error`). -/
def decryptSettings {σ : Type} (env : Env σ) (emptyS : σ) (uid : String)
    (rs : List EncryptedFeedRecord) : Except String σ :=
  match findOneRecord rs (uid ++ "_settings") with
  | none => .ok emptyS
  | some r =>
    if r.encrypted = "" then .ok emptyS
    else
      match env.privDecrypt (env.b64decode r.encrypted) with
      | none => .error "decrypt failed"
      | some bytes =>
        match env.parse (env.bytesToStr bytes) with
        | none => .error "parse failed"
        | some s => .ok s

/-- `on(cb)`: `this.listeners.push(cb)`. -/
def «on» {α : Type} (ls : List α) (cb : α) : List α := ls ++ [cb]

/-- `off(cb)`: `this.listeners = this.listeners.filter(_ => _ !== cb)`. -/
def off {α : Type} [DecidableEq α] (ls : List α) (cb : α) : List α :=
  ls.filter (fun x => x ≠ cb)

/-- `_notifyChange = data => { this.listeners.map(cb => cb(data)) }`: invoke
the listeners in registration order; a listener is modelled as
`δ → Except String β` (it may throw).  JS `Array.prototype.map` runs
synchronously and propagates the first exception, so the result collects the
values produced before a throw, paired with the first error if any — the
listeners after a throwing one are never invoked. -/
def notifyChange {δ β : Type} : List (δ → Except String β) → δ → List β × Option String
  | [], _ => ([], none)
  | cb :: rest, d =>
    match cb d with
    | .ok b =>
      let (bs, e) := notifyChange rest d
      (b :: bs, e)
    | .error e => ([], some e)

/-! ## Helper lemmas -/

/-- `_encrypt`'s promise always resolves: the internal `try/catch` swallows
every failure. -/
theorem encryptP_eq (env : Env FeedItem) (ok : Bool) (uid : String) (item : FeedItem)
    (rs : List EncryptedFeedRecord) :
    encryptP env ok uid item rs =
      .ok (if ok then ((encryptBody env uid item rs).1, some (encryptBody env uid item rs).2)
           else (rs, none)) := by
  cases ok <;> rfl

/-- Saving an item and looking it up by its `_id` finds exactly that item. -/
theorem findById_saveItem (l : List FeedItem) (it : FeedItem) :
    findById (saveItem l it) it._id = some it := by
  induction l with
  | nil => simp [saveItem, findById, List.find?]
  | cons x xs ih =>
    by_cases hx : x._id = it._id
    · simp [saveItem, hx, findById, List.find?]
    · have h1 : saveItem (x :: xs) it = x :: saveItem xs it := by
        simp [saveItem, hx]
      rw [h1]
      unfold findById
      rw [List.find?_cons_of_neg _ (by simpa using hx)]
      exact ih

/-- The background push never touches the local feed table: on success it
only updates the remote collection, and its failure branch is unreachable
because `_encrypt` never rejects. -/
theorem writeBackground_feed (env : Env FeedItem) (ok : Bool) (uid : String)
    (item : FeedItem) (st : DBState) :
    (writeBackground env ok uid item st).feed = st.feed := by
  cases ok <;> rfl

/-! ## Claim theorems -/

/-- Claim C1 (code_bug evidence): when the background push of `write` fails,
the state is left completely unchanged — in particular the local item's
`sync` flag is *not* set to `false`.  `_encrypt` catches the failure
internally and resolves with `undefined`, so the `.catch` handler in `write`
(the only code that would set `sync: false`) never runs. -/
theorem c1_failed_push_leaves_state_unchanged (env : Env FeedItem) (uid : String)
    (item : FeedItem) (st : DBState) :
    writeBackground env false uid item st = st := rfl

/-- Claim C2 (code_bug evidence): during the reconciliation retry scan, an
item whose re-push *fails* is still marked `sync := true` (and the remote
collection is left without its mirror): `await this._encrypt(item)` never
throws, so the `update({$set: {sync: true}})` line runs unconditionally,
contradicting "leave false on failure". -/
theorem c2_failed_retry_still_marked_synced (env : Env FeedItem) (uid : String)
    (st : DBState) (item : FeedItem) :
    retryStep env false uid st item =
      { feed := updateSync st.feed item.id true, remote := st.remote } := rfl

/-- Claim C5: `write(item)` persists the (mutated) item to the local store
before returning, so an immediate `read(item.id)` returns it — and it still
does after the background push completes, whether that push succeeded or
failed. -/
theorem c5_write_then_read (item : FeedItem) (st : DBState) (h : item.id ≠ "") :
    ∃ arg, (write item st).2 = .ok arg ∧
      read (write item st).1 item.id = some arg ∧
      ∀ (env : Env FeedItem) (ok : Bool) (uid : String),
        read (writeBackground env ok uid arg (write item st).1) item.id = some arg := by
  refine ⟨{ item with _id := item.id }, ?_, ?_, ?_⟩
  · simp [write, h]
  · show read (write item st).1 item.id = _
    have : (write item st).1 = { st with feed := saveItem st.feed { item with _id := item.id } } := by
      simp [write, h]
    rw [this]
    show findById (saveItem st.feed { item with _id := item.id }) item.id = _
    exact findById_saveItem st.feed { item with _id := item.id }
  · intro env ok uid
    show read _ item.id = _
    unfold read
    rw [writeBackground_feed]
    have : (write item st).1 = { st with feed := saveItem st.feed { item with _id := item.id } } := by
      simp [write, h]
    rw [this]
    exact findById_saveItem st.feed { item with _id := item.id }

/-- Witness for C5 at the concrete item `{id := "a", date := 3}` over the
empty store. -/
theorem c5_write_then_read_witness :
    ∃ arg, (write { id := "a", date := 3 } { feed := [], remote := [] }).2 = .ok arg ∧
      read (write { id := "a", date := 3 } { feed := [], remote := [] }).1 "a" = some arg ∧
      ∀ (env : Env FeedItem) (ok : Bool) (uid : String),
        read (writeBackground env ok uid arg
          (write { id := "a", date := 3 } { feed := [], remote := [] }).1) "a" = some arg :=
  c5_write_then_read { id := "a", date := 3 } { feed := [], remote := [] } (by decide)

/-- Claim C6: `write` of an item whose `id` is missing/empty rejects with the
invalid-argument error and performs no side effect at all: the state (local
and remote) is returned untouched and no push is attempted. -/
theorem c6_write_missing_id_no_side_effects (item : FeedItem) (st : DBState)
    (h : item.id = "") :
    write item st = (st, .error "feed item missing id") := by
  simp [write, h]

/-- Witness for C6 at the concrete id-less item. -/
theorem c6_write_missing_id_witness :
    write { id := "" } { feed := [], remote := [] } =
      ({ feed := [], remote := [] }, .error "feed item missing id") :=
  c6_write_missing_id_no_side_effects { id := "" } { feed := [], remote := [] } rfl

/-- Claim C10: for a valid item, `write` mutates the caller's `feedItem`
object by `feedItem._id = feedItem.id` before saving: the value the caller
observes afterwards is `{item with _id := item.id}`, and that mutated object
is exactly what was persisted. -/
theorem c10_write_mutates_argument (item : FeedItem) (st : DBState) (h : item.id ≠ "") :
    (write item st).2 = .ok { item with _id := item.id } ∧
    (write item st).1.feed = saveItem st.feed { item with _id := item.id } := by
  simp [write, h]

/-- Witness for C10: an item arriving with `_id = "stale"` leaves `write`
with `_id = "a"`. -/
theorem c10_write_mutates_argument_witness :
    (write { id := "a", _id := "stale" } { feed := [], remote := [] }).2 =
      .ok { id := "a", _id := "a" } ∧
    (write { id := "a", _id := "stale" } { feed := [], remote := [] }).1.feed =
      saveItem [] { id := "a", _id := "a" } :=
  c10_write_mutates_argument { id := "a", _id := "stale" } { feed := [], remote := [] }
    (by decide)

/-- Claim C3: the pull path merges into the local store exactly the remote
candidates passing the eligibility filter (no settings marker in the key,
`txHash` present), each decrypted independently: a decryption failure yields
`none` and only that record is dropped (`filterMap`), the remaining decrypted
items are still saved. -/
theorem c3_pull_merges_exactly_eligible (env : Env FeedItem) (uid : String) (st : DBState) :
    (pullFromRemote env uid st).feed =
      saveAll st.feed
        (((remoteFind st.remote uid (lastSyncOf st.feed)).filter eligibleRecord).filterMap
          (decryptRecord env)) := by
  simp only [pullFromRemote]
  split
  · simp [List.filterMap_map]
  · next hlen =>
    have hnil : (remoteFind st.remote uid (lastSyncOf st.feed)).filter eligibleRecord = [] :=
      List.length_eq_zero.mp (by omega)
    rw [hnil]
    rfl

/-- Claim C4: each reconciliation pass computes the Sync Watermark as the
maximum `date` over the local feed (0 when empty) and queries the remote
collection for the current user's records with `date` strictly greater. -/
theorem c4_watermark_max_and_strict_query (st : DBState) (uid : String) :
    lastSyncOf st.feed = ((st.feed.map FeedItem.date).maximum).unbot' 0 ∧
    remoteFind st.remote uid (lastSyncOf st.feed) =
      st.remote.filter (fun r => r.user_id = uid && lastSyncOf st.feed < r.date) := by
  refine ⟨?_, rfl⟩
  have hperm := List.perm_insertionSort dateLe st.feed
  have hsorted := List.sorted_insertionSort dateLe st.feed
  cases hrev : (List.insertionSort dateLe st.feed).reverse with
  | nil =>
    have hsnil : List.insertionSort dateLe st.feed = [] := List.reverse_eq_nil_iff.mp hrev
    have hfeed : st.feed = [] := (hsnil ▸ hperm).symm.eq_nil
    rw [hfeed]
    rfl
  | cons h t =>
    have hlast : lastSyncOf st.feed = h.date := by
      simp [lastSyncOf, orderByDate, Collection.reverse, Collection.limit, Collection.toArray,
        hrev]
    have hmem : h ∈ st.feed := by
      have h1 : h ∈ (List.insertionSort dateLe st.feed).reverse := by
        rw [hrev]; exact List.mem_cons_self _ _
      exact hperm.mem_iff.mp (by simpa using h1)
    have hmax : (st.feed.map FeedItem.date).maximum = (h.date : WithBot Int) := by
      rw [List.maximum_eq_coe_iff]
      refine ⟨List.mem_map_of_mem _ hmem, ?_⟩
      intro a ha
      obtain ⟨i, hi, hia⟩ := List.mem_map.mp ha
      have his : i ∈ (List.insertionSort dateLe st.feed).reverse := by
        simpa using hperm.mem_iff.mpr hi
      rw [hrev] at his
      rcases List.mem_cons.mp his with he | ht
      · rw [← hia, he]
      · have hps : List.Pairwise (fun a b => dateLe b a)
            (List.insertionSort dateLe st.feed).reverse := by
          rw [List.pairwise_reverse]
          exact hsorted
        rw [hrev] at hps
        have hle : dateLe i h := (List.pairwise_cons.mp hps).1 i ht
        rw [← hia]
        exact hle
    rw [hlast, hmax]
    rfl

/-- Concrete local store for settling C7: four items in descending `date`
order, the second of which is excluded (`status: deleted`). -/
def c7State : DBState :=
  { feed := [{ id := "a", date := 4 }, { id := "b", date := 3, status := some "deleted" },
             { id := "c", date := 2 }, { id := "d", date := 1 }],
    remote := [] }

/-- Claim C7 counterexample: with an excluded item sitting inside the first
`offset` positions, the code's chain (`offset` before `filter`) returns
`[c, d]`, while the claim's order (exclusion first, then `offset`) would
return `[d]`. -/
theorem c7_offset_before_exclusion_counterexample :
    getFeedPage true 10 2 c7State =
      [{ id := "c", date := 2 }, { id := "d", date := 1 }] ∧
    getFeedPageClaimed true 10 2 c7State = [{ id := "d", date := 1 }] ∧
    getFeedPage true 10 2 c7State ≠ getFeedPageClaimed true 10 2 c7State := by
  decide

/-- Claim C7 as amended: `getFeedPage` never returns an excluded item, its
result is ordered by `date` descending, any underlying failure yields the
empty list, and the page is computed by *first* skipping `offset` items of
the descending order, *then* applying the exclusion filter, then taking at
most `numResults`. -/
theorem c7_feed_page_properties (ok : Bool) (n off : Nat) (st : DBState) :
    (∀ i ∈ getFeedPage ok n off st, keepItem i = true) ∧
    (getFeedPage ok n off st).Pairwise (fun a b => b.date ≤ a.date) ∧
    getFeedPage false n off st = [] ∧
    getFeedPage true n off st =
      ((((List.insertionSort dateLe st.feed).reverse.drop off).filter keepItem).take n) := by
  refine ⟨?_, ?_, rfl, rfl⟩
  · intro i hi
    cases ok with
    | false => simp [getFeedPage] at hi
    | true =>
      have hi' : i ∈ ((List.insertionSort dateLe st.feed).reverse.drop off).filter keepItem :=
        List.mem_of_mem_take hi
      exact List.of_mem_filter hi'
  · cases ok with
    | false => exact List.Pairwise.nil
    | true =>
      have hsub : (getFeedPage true n off st).Sublist
          (List.insertionSort dateLe st.feed).reverse := by
        have h1 := List.take_sublist n
          (((List.insertionSort dateLe st.feed).reverse.drop off).filter keepItem)
        have h2 := List.filter_sublist (p := keepItem)
          ((List.insertionSort dateLe st.feed).reverse.drop off)
        have h3 := List.drop_sublist off (List.insertionSort dateLe st.feed).reverse
        exact h1.trans (h2.trans h3)
      have hrev : ((List.insertionSort dateLe st.feed).reverse).Pairwise
          (fun a b => b.date ≤ a.date) := by
        rw [List.pairwise_reverse]
        exact List.sorted_insertionSort dateLe st.feed
      exact List.Pairwise.sublist hsub hrev

/-- Witness for C7's amended theorem: item `c` of the concrete store is on
the returned page and indeed not excluded. -/
theorem c7_feed_page_properties_witness :
    keepItem { id := "c", date := 2 } = true :=
  (c7_feed_page_properties true 10 2 c7State).1 { id := "c", date := 2 } (by decide)

/-- Claim C8 (code_bug evidence): `_notifyChange` runs the listeners with a
plain `listeners.map(cb => cb(data))`, so a throwing listener aborts the
fan-out: with a throwing listener registered first and a well-behaved one
second, no listener output is delivered and the error escapes, while the
second listener alone would have produced its output. -/
theorem c8_throwing_listener_blocks_delivery :
    notifyChange
      («on» («on» ([] : List (Nat → Except String Nat)) (fun _ => .error "boom"))
        (fun d => .ok (d + 1))) 7 = ([], some "boom") ∧
    notifyChange [fun d => (.ok (d + 1) : Except String Nat)] 7 = ([8], none) :=
  ⟨rfl, rfl⟩

/-- Upserting a settings record and fetching it back by its `_id` returns
exactly that record, provided every stored record carrying this `_id`
belongs to this user (always true for `<userId>_settings` keys). -/
theorem findOneRecord_upsertRecord (r : EncryptedFeedRecord)
    (rs : List EncryptedFeedRecord)
    (hinv : ∀ x ∈ rs, x._id = r._id → x.user_id = r.user_id) :
    findOneRecord (upsertRecord r rs) r._id = some r := by
  induction rs with
  | nil => simp [upsertRecord, findOneRecord, List.find?]
  | cons x xs ih =>
    by_cases hm : x._id = r._id ∧ x.user_id = r.user_id
    · have hrw : upsertRecord r (x :: xs) = r :: xs := by simp [upsertRecord, hm]
      rw [hrw]
      unfold findOneRecord
      rw [List.find?_cons_of_pos _ (by simp)]
    · have hrw : upsertRecord r (x :: xs) = x :: upsertRecord r xs := by
        simp [upsertRecord, hm]
      rw [hrw]
      have hxid : x._id ≠ r._id := fun he => hm ⟨he, hinv x (List.mem_cons_self _ _) he⟩
      unfold findOneRecord
      rw [List.find?_cons_of_neg _ (by simpa using hxid)]
      exact ih (fun y hy hid => hinv y (List.mem_cons_of_mem _ hy) hid)

/-- Claim C9: with serialization/crypto round-tripping on the value `s`,
`decryptSettings` right after a successful `encryptSettings(s)` returns `s`,
and `decryptSettings` over a store with no settings record returns the empty
structure. -/
theorem c9_settings_roundtrip {σ : Type} (env : Env σ) (emptyS : σ) (uid : String) (s : σ)
    (rs : List EncryptedFeedRecord)
    (hinv : ∀ r ∈ rs, r._id = uid ++ "_settings" → r.user_id = uid)
    (h1 : env.privDecrypt (env.b64decode (env.b64encode (env.pubEncrypt
            (env.strToBytes (env.stringify s))))) = some (env.strToBytes (env.stringify s)))
    (h2 : env.bytesToStr (env.strToBytes (env.stringify s)) = env.stringify s)
    (h3 : env.parse (env.stringify s) = some s)
    (hne : env.b64encode (env.pubEncrypt (env.strToBytes (env.stringify s))) ≠ "") :
    decryptSettings env emptyS uid (encryptSettings env uid s rs) = .ok s ∧
    (findOneRecord rs (uid ++ "_settings") = none →
      decryptSettings env emptyS uid rs = .ok emptyS) := by
  constructor
  · have hfind :
        findOneRecord (encryptSettings env uid s rs) (uid ++ "_settings") =
          some { _id := uid ++ "_settings", user_id := uid,
                 encrypted := env.b64encode (env.pubEncrypt (env.strToBytes (env.stringify s))) } := by
      unfold encryptSettings
      exact findOneRecord_upsertRecord _ rs (fun x hx hid => hinv x hx hid)
    unfold decryptSettings
    rw [hfind]
    simp [hne, h1, h2, h3]
  · intro hnone
    unfold decryptSettings
    rw [hnone]

/-- A concrete environment for the C9 witness: unary "serialization", identity
crypto, length-based byte/text plumbing. -/
def c9Env : Env Nat :=
  { stringify := fun n => String.mk (List.replicate n 'a'),
    parse := fun s => some s.length,
    strToBytes := fun s => [s.length],
    bytesToStr := fun l => String.mk (List.replicate (l.headD 0) 'a'),
    pubEncrypt := id,
    privDecrypt := fun l => some l,
    b64encode := fun l => String.mk (List.replicate (l.headD 0) 'b'),
    b64decode := fun s => [s.length] }

/-- Witness for C9 at `s = 5` over the empty remote collection. -/
theorem c9_settings_roundtrip_witness :
    decryptSettings c9Env 0 "u" (encryptSettings c9Env "u" 5 []) = .ok 5 :=
  (c9_settings_roundtrip c9Env 0 "u" 5 [] (by simp) (by decide) (by decide) (by decide)
    (by decide)).1

end RealmDB
